import Mathlib

/-!
Verification development for the zzzz declarative automation framework.

The framework drives items of a flow from current state to goal state.
This file gives a shallow embedding of the command execution engine:
the apply command's block pipeline construction, the command block
wrapper's partial-outcome collation and short-circuit behaviour, the
state store round-trip, the diff computation, the multi-profile diff
params-spec fallback, and the params partial conversion; and it settles
the specification's claims about them.

Definitions are translated from the repository sources; where a piece
of code is not part of the provided sources (only its callers or tests
are), the corresponding definition is modelled from the specification
and marked as such in its doc comment.
-/

namespace Zzzz

/-- Item identifier: a short snake-case token keying items in a flow. -/
abbrev ItemId := String

/-! ## Apply command pipeline construction (src/crate/rt/src/cmds/sub/apply_cmd.rs)

`ApplyCmd::exec_internal` builds a `CmdExecution` out of command blocks.
It always starts with `StatesCurrentReadCmdBlock` and
`StatesGoalReadCmdBlock`, then appends blocks according to the
`ApplyStoredStateSync` mode (lines 234-289), and finally appends
`ApplyExecCmdBlock`.
-/

/-- The stored-state-sync mode accepted by `ApplyCmd::exec_with` /
`exec_dry_with` (module `apply_stored_state_sync`). -/
inductive ApplyStoredStateSync
  | none
  | current
  | goal
  | both
deriving DecidableEq, Repr

/-- Scope argument of the `StatesDiscoverCmdBlock` constructors used by
`ApplyCmd::exec_internal`. -/
inductive DiscoverScope
  | current
  | goal
  | currentAndGoal
deriving DecidableEq, Repr

/-- Scope argument of the `ApplyStateSyncCheckCmdBlock` constructors. -/
inductive SyncCheckScope
  | current
  | goal
  | currentAndGoal
deriving DecidableEq, Repr

/-- Description of one command block appended by `ApplyCmd::exec_internal`. -/
inductive ApplyCmdBlock
  | statesCurrentRead
  | statesGoalRead
  | statesDiscover (scope : DiscoverScope)
  | applyStateSyncCheck (scope : SyncCheckScope)
  | applyExec
deriving DecidableEq, Repr

/-- The sequence of command blocks built by `ApplyCmd::exec_internal`
(src/crate/rt/src/cmds/sub/apply_cmd.rs lines 210-295), one entry per
`with_cmd_block` call, in order: the two read blocks, then the blocks
appended by the `match apply_stored_state_sync` at lines 234-289, then
the apply-exec block. -/
def applyCmdBlocks (sync : ApplyStoredStateSync) : List ApplyCmdBlock :=
  [ApplyCmdBlock.statesCurrentRead, ApplyCmdBlock.statesGoalRead]
    ++ (match sync with
        | ApplyStoredStateSync.none =>
          [ApplyCmdBlock.applyStateSyncCheck SyncCheckScope.goal]
        | ApplyStoredStateSync.current =>
          [ApplyCmdBlock.statesDiscover DiscoverScope.current,
           ApplyCmdBlock.applyStateSyncCheck SyncCheckScope.goal]
        | ApplyStoredStateSync.goal =>
          [ApplyCmdBlock.statesDiscover DiscoverScope.currentAndGoal,
           ApplyCmdBlock.applyStateSyncCheck SyncCheckScope.goal]
        | ApplyStoredStateSync.both =>
          [ApplyCmdBlock.statesDiscover DiscoverScope.currentAndGoal,
           ApplyCmdBlock.applyStateSyncCheck SyncCheckScope.currentAndGoal])
    ++ [ApplyCmdBlock.applyExec]

/-- Whether a block is a state-sync check block. -/
def ApplyCmdBlock.isSyncCheck : ApplyCmdBlock → Bool
  | ApplyCmdBlock.applyStateSyncCheck _ => true
  | _ => false

/-! ## Command block wrapper (src/crate/cmd_rt/src/cmd_block/cmd_block_wrapper.rs)

`CmdBlockWrapper::exec` fetches the block's input from the resource map,
initialises the outcome accumulator, runs the block's `exec` future
(which emits per-item outcome partials on a channel), collates every
emitted partial into the accumulator, and then either publishes the
final outcome into the resource map (no item errors) or maps the
accumulator through the partial-execution handler and returns a
`CmdBlockError::Outcome` (item errors present).
-/

/-- A command outcome: a value plus an `ItemId`-keyed error map
(`peace_rt_model::outcomes::CmdOutcome`). -/
structure CmdOutcome (T E : Type) where
  value : T
  errors : List (ItemId × E)
deriving DecidableEq, Repr

/-- `CmdOutcome::is_ok`: no per-item errors are present. -/
def CmdOutcome.isOk (o : CmdOutcome T E) : Bool :=
  o.errors.isEmpty

/-- `CmdOutcome::map`: maps the value, keeping the per-item error map. -/
def CmdOutcome.map (o : CmdOutcome T E) (f : T → U) : CmdOutcome U E :=
  { value := f o.value, errors := o.errors }

/-- `peace_cmd_rt::CmdBlockError`: either a block-wide error, or a
partial outcome mapped into the execution outcome type. -/
inductive CmdBlockError (ExecOut E : Type)
  | block (e : E)
  | outcome (o : CmdOutcome ExecOut E)
deriving DecidableEq, Repr

/-- The `CmdBlock` contract (§4.F): `input_fetch` takes ownership of
typed inputs from the resource map, `outcome_acc_init` seeds the
accumulator, `exec` drives items emitting partials in completion order
(and may mutate the resource map through `cmd_view`), `outcome_collate`
folds one partial into the accumulator, `outcome_from_acc` and
`outcome_insert` publish the final outcome. The resource map is
abstracted as `Res`; emitted partials are listed in emission order. -/
structure CmdBlockModel (Res Input Acc Out Prt E : Type) where
  inputFetch : Res → Except E (Input × Res)
  outcomeAccInit : Input → Acc
  exec : Input → Res → List Prt × Res
  outcomeCollate : CmdOutcome Acc E → Prt → Except E (CmdOutcome Acc E)
  outcomeFromAcc : Acc → Out
  outcomeInsert : Res → Out → Res

/-- `CmdBlockWrapper`: a `CmdBlock` plus the partial execution handler
run if an item failure happens while executing the block. -/
structure CmdBlockWrapper (Res Input Acc Out ExecOut Prt E : Type) where
  cmdBlock : CmdBlockModel Res Input Acc Out Prt E
  fnPartialExecHandler : Acc → ExecOut

/-- `CmdBlockWrapper::exec` (cmd_block_wrapper.rs lines 130-202):
fetch input, initialise the accumulated `CmdOutcome` with empty errors,
run the block collecting partials, fold each partial through
`outcome_collate` (a collate error is a block-wide `CmdBlockError::Block`),
then: if the accumulated outcome has no item errors, compute the final
outcome from the accumulator and insert it into the resource map;
otherwise map the accumulator through `fn_partial_exec_handler`,
keeping the per-item error map, and fail with `CmdBlockError::Outcome`. -/
def CmdBlockWrapper.exec {Res Input AccT Out ExecOut Prt E : Type}
    (w : CmdBlockWrapper Res Input AccT Out ExecOut Prt E)
    (res : Res) : Except (CmdBlockError ExecOut E) Res :=
  match w.cmdBlock.inputFetch res with
  | Except.error e => Except.error (CmdBlockError.block e)
  | Except.ok (input, res1) =>
    let acc0 : CmdOutcome AccT E := { value := w.cmdBlock.outcomeAccInit input, errors := [] }
    let execResult := w.cmdBlock.exec input res1
    match execResult.1.foldlM w.cmdBlock.outcomeCollate acc0 with
    | Except.error e => Except.error (CmdBlockError.block e)
    | Except.ok cmdOutcome =>
      if cmdOutcome.isOk then
        Except.ok
          (w.cmdBlock.outcomeInsert execResult.2 (w.cmdBlock.outcomeFromAcc cmdOutcome.value))
      else
        Except.error (CmdBlockError.outcome (cmdOutcome.map w.fnPartialExecHandler))

/-- Result of running a command execution pipeline: all blocks complete,
or the pipeline stops at a block with per-item errors (`BlockInterrupted`),
or a block-wide error is returned. -/
inductive CmdExecutionResult (Res ExecOut E : Type)
  | complete (res : Res)
  | blockInterrupted (o : CmdOutcome ExecOut E)
  | blockErr (e : E)
deriving DecidableEq, Repr

/-- Modelled from the spec: the `CmdExecution` pipeline loop (§4.G;
`cmd_execution.rs` is not among the provided sources). Blocks execute in
order; a block that returns `CmdBlockError::Outcome` stops the pipeline
at that block (`BlockInterrupted`), a block-wide error stops it with
that error, and a successful block hands the updated resource map to
the next block. -/
def cmdExecutionRun :
    List (Res → Except (CmdBlockError ExecOut E) Res) → Res →
      CmdExecutionResult Res ExecOut E
  | [], res => CmdExecutionResult.complete res
  | bf :: rest, res =>
    match bf res with
    | Except.ok res2 => cmdExecutionRun rest res2
    | Except.error (CmdBlockError.block e) => CmdExecutionResult.blockErr e
    | Except.error (CmdBlockError.outcome o) => CmdExecutionResult.blockInterrupted o

/-- A sample command block used to exercise the wrapper on concrete
inputs: resources are a counter, partials either carry a number to add
to the accumulator or a per-item error to record. -/
def sampleCmdBlock :
    CmdBlockModel Nat Unit Nat Nat (Except (ItemId × String) Nat) String :=
  { inputFetch := fun r => Except.ok ((), r)
    outcomeAccInit := fun _ => 0
    exec := fun _ r => ([Except.ok 3, Except.error ("item_a", "boom")], r)
    outcomeCollate := fun co p =>
      match p with
      | Except.ok n => Except.ok { co with value := co.value + n }
      | Except.error ie => Except.ok { co with errors := co.errors ++ [ie] }
    outcomeFromAcc := fun a => a
    outcomeInsert := fun r o => r + o }

/-- The sample block wrapped with an identity partial-execution handler. -/
def sampleCmdBlockWrapper :
    CmdBlockWrapper Nat Unit Nat Nat Nat (Except (ItemId × String) Nat) String :=
  { cmdBlock := sampleCmdBlock
    fnPartialExecHandler := fun a => a }

/-! ## Diff computation (src/crate/rt/src/cmds/diff_cmd.rs)

`DiffCmd::diff_any` streams the flow graph's items in graph order,
runs each item's `state_diff_exec` against the two states maps, keeps
`Some` diffs keyed by item id, silently omits `None` diffs, and
propagates the first item error.
-/

/-- An item as seen by `DiffCmd::diff_any`: its id and its
`state_diff_exec` function over two states maps of types `SA`, `SB`. -/
structure DiffItemModel (E D SA SB : Type) where
  id : ItemId
  stateDiffExec : SA → SB → Except E (Option D)

/-- `DiffCmd::diff_any` (diff_cmd.rs lines 222-248): stream the graph's
items in graph order, `try_filter_map` each through `state_diff_exec`,
and `try_collect` the `(item_id, state_diff)` pairs; an item whose
`state_diff_exec` returns `Ok(None)` contributes nothing, and an `Err`
aborts the whole computation. -/
def diffAny {E D SA SB : Type} (items : List (DiffItemModel E D SA SB))
    (sa : SA) (sb : SB) : Except E (List (ItemId × D)) :=
  match items with
  | [] => Except.ok []
  | it :: rest =>
    match it.stateDiffExec sa sb with
    | Except.error e => Except.error e
    | Except.ok dOpt =>
      match diffAny rest sa sb with
      | Except.error e => Except.error e
      | Except.ok tail =>
        match dOpt with
        | some d => Except.ok ((it.id, d) :: tail)
        | none => Except.ok tail

/-! ## The vec_copy item's state diff

The `vec_copy` test item's state is a list of byte values; its
`state_diff` computes a `VecDiff` between current and goal contents
using the `diff` crate.
-/

/-- One segment of a `VecDiff` (`diff::VecDiffType`): values inserted
at an index, a run of values removed, or a run of values altered (the
changes hold the wrapping byte difference new - old). -/
inductive VecDiffType
  | inserted (index : Nat) (changes : List Nat)
  | removed (index : Nat) (len : Nat)
  | altered (index : Nat) (changes : List Nat)
deriving DecidableEq, Repr

/-- Wrapping unsigned-byte subtraction `y - x` (u8 arithmetic). -/
def wrappingSub (y x : Nat) : Nat :=
  (y % 256 + (256 - x % 256)) % 256

/-- Helper for `lcs`: longest common subsequence of `a :: as` and the
second list, where `lcsAs` computes the longest common subsequence of
`as` against any list. -/
def lcsAux (a : Nat) (lcsAs : List Nat → List Nat) : List Nat → List Nat
  | [] => []
  | b :: bs =>
    if a = b then a :: lcsAs bs
    else
      let l1 := lcsAux a lcsAs bs
      let l2 := lcsAs (b :: bs)
      if l1.length < l2.length then l2 else l1

/-- Longest common subsequence of two byte lists. -/
def lcs : List Nat → List Nat → List Nat
  | [], _ => []
  | a :: as, bs => lcsAux a (lcs as) bs

/-- Changes produced for one gap between common elements: positionally
paired elements become one `altered` run (wrapping byte deltas), extra
source elements become a `removed` run, extra target elements an
`inserted` run. Indices refer to positions in the source list. -/
def gapChanges (aIdx : Nat) (aRun bRun : List Nat) : List VecDiffType :=
  let n := min aRun.length bRun.length
  let altered := (aRun.zip bRun).map fun p => wrappingSub p.2 p.1
  let alteredPart :=
    if altered.isEmpty then [] else [VecDiffType.altered aIdx altered]
  let aRest := aRun.drop n
  let bRest := bRun.drop n
  alteredPart
    ++ (if aRest.isEmpty then [] else [VecDiffType.removed (aIdx + n) aRest.length])
    ++ (if bRest.isEmpty then [] else [VecDiffType.inserted (aIdx + n) bRest])

/-- Walk the two lists along their longest common subsequence, emitting
`gapChanges` for every stretch between common elements. -/
def vecDiffGo (aIdx : Nat) (a b : List Nat) : List Nat → List VecDiffType
  | [] => gapChanges aIdx a b
  | c :: cs =>
    let aRun := a.takeWhile fun x => x != c
    let aRest := (a.dropWhile fun x => x != c).drop 1
    let bRun := b.takeWhile fun x => x != c
    let bRest := (b.dropWhile fun x => x != c).drop 1
    gapChanges aIdx aRun bRun ++ vecDiffGo (aIdx + aRun.length + 1) aRest bRest cs

/-- Modelled from the spec: the `vec_copy` item's `state_diff` (the
item's source is not among the provided sources) diffs current against
goal contents with the `diff` crate's list diff, producing
`Inserted` / `Removed` / `Altered` segments. Validated below against
both expected diff values asserted in
src/workspace_tests/src/rt/diff_cmd.rs. -/
def vecDiff (a b : List Nat) : List VecDiffType :=
  vecDiffGo 0 a b (lcs a b)

/-- A states map as used for diffing: item id to byte-list state. -/
abbrev VecStates := List (ItemId × List Nat)

/-- The `vec_copy` item as a `DiffItemModel`: its `state_diff_exec`
looks up its own state in both maps and returns the `VecDiff` when both
are present, `None` otherwise. -/
def vecCopyDiffItem : DiffItemModel String (List VecDiffType) VecStates VecStates :=
  { id := "vec_copy"
    stateDiffExec := fun sa sb =>
      match sa.lookup "vec_copy", sb.lookup "vec_copy" with
      | some cur, some goal => Except.ok (some (vecDiff cur goal))
      | _, _ => Except.ok none }

/-- Stored current states of the single-item `vec_copy` flow after
discovery only: the destination list starts empty. -/
def vecCopyStoredCurrent : VecStates := [("vec_copy", [])]

/-- Stored goal states of the single-item `vec_copy` flow after
discovery: the goal is the `VecA` param contents `[0..=7]`. -/
def vecCopyStoredGoal : VecStates := [("vec_copy", [0, 1, 2, 3, 4, 5, 6, 7])]

/-- Sample diff items exercising `diffAny` on concrete inputs: the
middle item's `state_diff` returns `None` and is omitted. -/
def sampleDiffItems : List (DiffItemModel String Nat Nat Nat) :=
  [ { id := "item_a", stateDiffExec := fun a b => Except.ok (some (a + b)) },
    { id := "item_b", stateDiffExec := fun _ _ => Except.ok none },
    { id := "item_c", stateDiffExec := fun a b => Except.ok (some (a * b)) } ]

/-! ## Error taxonomy (src/crate/rt_model_core/src/error.rs)

The variants of the runtime error enum relevant to the claims, with
their data reduced to the identifying fields.
-/

/-- Relevant variants of the runtime `Error` enum:
`ParamsSpecsNotDefinedForDiff` (error.rs lines 127-144),
`ProfileNotInScope`, `ProfileStatesCurrentNotDiscovered`,
`StatesCurrentDiscoverRequired` (lines 363-375),
`StatesDesiredDiscoverRequired`, and `StatesDeserialize` (the parse
error kind, lines 170-200; file source and span data elided). -/
inductive PeaceError
  | paramsSpecsNotDefinedForDiff (profileA : String) (profileB : String)
  | profileNotInScope (profile : String) (profilesInScope : List String)
  | profileStatesCurrentNotDiscovered (profile : String)
  | statesCurrentDiscoverRequired
  | statesDesiredDiscoverRequired
  | statesDeserialize (flowId : String) (errorMessage : String)
deriving DecidableEq, Repr

/-! ## Multi-profile diff of stored current states
(src/crate/rt/src/cmds/diff_cmd.rs, `DiffCmd::diff_current_stored`)
-/

/-- The states phase of `DiffCmd::diff_current_stored` (diff_cmd.rs
lines 173-204), once params specs have been resolved to `paramsSpecs`:
look up each profile's stored current states (absent key is
`ProfileNotInScope`, a key mapped to `None` is
`ProfileStatesCurrentNotDiscovered`, profile a checked before
profile b), then run `diff_any`. The diff itself is abstracted as
`diffAnyFn` applied to the resolved params specs and both states. -/
def diffCurrentStoredStates {PS States_ Result : Type}
    (profiles : List String)
    (profileToStatesCurrentStored : String → Option (Option States_))
    (diffAnyFn : PS → States_ → States_ → Result)
    (profileA profileB : String) (paramsSpecs : PS) :
    Except PeaceError Result :=
  match profileToStatesCurrentStored profileA with
  | none => Except.error (PeaceError.profileNotInScope profileA profiles)
  | some none => Except.error (PeaceError.profileStatesCurrentNotDiscovered profileA)
  | some (some statesA) =>
    match profileToStatesCurrentStored profileB with
    | none => Except.error (PeaceError.profileNotInScope profileB profiles)
    | some none => Except.error (PeaceError.profileStatesCurrentNotDiscovered profileB)
    | some (some statesB) => Except.ok (diffAnyFn paramsSpecs statesA statesB)

/-- `DiffCmd::diff_current_stored` (diff_cmd.rs lines 148-205): the
params specs used for diffing are
`profile_to_params_specs.get(profile_a).or_else(|| ....get(profile_b))`;
if that resolves to `Some(Some(params_specs))` the diff proceeds with
them, otherwise the command fails with `ParamsSpecsNotDefinedForDiff`
naming both profiles. `profile_to_params_specs` maps a profile in scope
to `Some`/`None` params specs, and is `none` for a profile without an
entry. -/
def diffCurrentStored {PS States_ Result : Type}
    (profiles : List String)
    (profileToParamsSpecs : String → Option (Option PS))
    (profileToStatesCurrentStored : String → Option (Option States_))
    (diffAnyFn : PS → States_ → States_ → Result)
    (profileA profileB : String) :
    Except PeaceError Result :=
  let paramsSpecsOpt :=
    (profileToParamsSpecs profileA).orElse fun _ => profileToParamsSpecs profileB
  match paramsSpecsOpt with
  | some (some paramsSpecs) =>
    diffCurrentStoredStates profiles profileToStatesCurrentStored diffAnyFn
      profileA profileB paramsSpecs
  | _ =>
    Except.error (PeaceError.paramsSpecsNotDefinedForDiff profileA profileB)

/-! ## Apply execution (§4.G apply phase; src/crate/rt/src/cmds/sub/apply_cmd.rs)

`ApplyCmd::exec_with` runs `exec_internal` (whose last block is
`ApplyExecCmdBlock`) and then serializes the applied states into the
stored current-state snapshot (and, for ensure, the goal snapshot);
`ApplyCmd::exec_dry_with` runs `exec_internal` with the dry block and
performs no serialization (apply_cmd.rs lines 100-107 vs 164-193).
-/

/-- The result of `Item::apply_check`: whether `apply` needs to run. -/
inductive ApplyCheck
  | execRequired
  | execNotRequired
deriving DecidableEq, Repr

/-- The live world, giving each item's discoverable current state:
`state_current` for item `i` reads the world at `i`, and an item's
`apply` writes only its own slot. -/
abbrev World (St : Type) := ItemId → Option St

/-- A states map as serialized into a per-flow snapshot file: one entry
per item in graph order. -/
abbrev StatesMap (St : Type) := List (ItemId × Option St)

/-- Modelled from the spec: the item functions used by
`ApplyExecCmdBlock` (§4.B, §4.G; the block's source is not among the
provided sources): goal-state discovery (which may read predecessor
outputs from the world), `apply_check`, `apply`, and `apply_dry`. -/
structure ApplyItemModel (St : Type) where
  id : ItemId
  stateGoal : World St → Option St
  applyCheck : Option St → Option St → ApplyCheck
  applyExec : Option St → Option St → Option St
  applyExecDry : Option St → Option St → Option St

/-- Modelled from the spec: one item's turn inside `ApplyExecCmdBlock`
(§4.G): discover current, resolve goal, run `apply_check`; on
`ExecNotRequired` emit the unchanged current state, otherwise run
`apply` and write the new state into the item's slot of the world. -/
def applyItemStep {St : Type} (w : World St) (it : ApplyItemModel St) :
    World St × (ItemId × Option St) :=
  match it.applyCheck (w it.id) (it.stateGoal w) with
  | ApplyCheck.execNotRequired => (w, (it.id, w it.id))
  | ApplyCheck.execRequired =>
    (fun i => if i = it.id then it.applyExec (w it.id) (it.stateGoal w) else w i,
     (it.id, it.applyExec (w it.id) (it.stateGoal w)))

/-- Modelled from the spec: `ApplyExecCmdBlock` walks the items in
graph order, threading the world and collecting each item's emitted
applied state. -/
def applyExecBlock {St : Type} (items : List (ApplyItemModel St)) (w : World St) :
    World St × StatesMap St :=
  match items with
  | [] => (w, [])
  | it :: rest =>
    let step := applyItemStep w it
    let tail := applyExecBlock rest step.1
    (tail.1, step.2 :: tail.2)

/-- Modelled from the spec: one item's turn inside the dry variant of
`ApplyExecCmdBlock`: same check, but `apply_exec_dry` is side-effect
free, so the world is not modified. -/
def applyDryItemStep {St : Type} (w : World St) (it : ApplyItemModel St) :
    ItemId × Option St :=
  match it.applyCheck (w it.id) (it.stateGoal w) with
  | ApplyCheck.execNotRequired => (it.id, w it.id)
  | ApplyCheck.execRequired => (it.id, it.applyExecDry (w it.id) (it.stateGoal w))

/-- The observable output of an apply command: the world after the run,
the stored current-state snapshot after the run, and the applied states
returned to the caller. -/
structure ApplyCmdOutput (St : Type) where
  world : World St
  storedCurrent : StatesMap St
  statesApplied : StatesMap St

/-- `ApplyCmd::exec_with` (apply_cmd.rs lines 164-193): run the apply
blocks, then `serialize_current` writes the applied states over the
stored current-state snapshot. -/
def ensureCmdExec {St : Type} (items : List (ApplyItemModel St)) (w : World St)
    (storedCurrent : StatesMap St) : ApplyCmdOutput St :=
  let run := applyExecBlock items w
  { world := run.1, storedCurrent := run.2, statesApplied := run.2 }

/-- `ApplyCmd::exec_dry_with` (apply_cmd.rs lines 100-107): run the dry
apply blocks and return the dry-applied states; unlike `exec_with`, no
`serialize_current` call is made, so the stored snapshot is untouched. -/
def ensureCmdExecDry {St : Type} (items : List (ApplyItemModel St)) (w : World St)
    (storedCurrent : StatesMap St) : ApplyCmdOutput St :=
  { world := w
    storedCurrent := storedCurrent
    statesApplied := items.map (applyDryItemStep w) }

/-! ## The tar_x item

Modelled from the spec and from
src/workspace_tests/src/item_specs/tar_x_item_spec.rs: the item's state
is the list of `(relative path, mtime seconds)` file metadata entries
under the destination directory
(src/item_specs/tar_x/src/tar_x_state_current_fn_spec.rs); the goal is
the archive's entries with the archive's mtimes; `apply` extracts the
archive and removes stale files, leaving the destination's listing
equal to the archive's; `apply_check` requires execution exactly when
the current listing differs from the goal listing.
-/

/-- File metadata entries: relative path and mtime in seconds. -/
abbrev FileMetadatas := List (String × Nat)

/-- The mtime of the files inside the `TAR_X2_TAR` test archive. -/
def tarX2Mtime : Nat := 1671674955

/-- The mtime of the files inside the `TAR_X1_TAR` test archive, used
to pre-populate the destination with stale files. -/
def tarX1Mtime : Nat := 1671674945

/-- The entries of the `TAR_X2_TAR` archive: `b` and `sub/d` at the
archive's mtime. -/
def tarArchiveEntries : FileMetadatas :=
  [("b", tarX2Mtime), ("sub/d", tarX2Mtime)]

/-- Modelled from the spec: the `tar_x` item. -/
def tarXItem : ApplyItemModel FileMetadatas :=
  { id := "tar_x"
    stateGoal := fun _ => some tarArchiveEntries
    applyCheck := fun cur goal =>
      if cur = goal then ApplyCheck.execNotRequired else ApplyCheck.execRequired
    applyExec := fun _ goal => goal
    applyExecDry := fun _ goal => goal }

/-- The pre-populated destination of the idempotence test
(`ensure_removes_other_files_and_is_idempotent`): the `TAR_X1_TAR`
contents plus overwritten zero-mtime `b` and `sub/d` files. -/
def tarWorldStale : World FileMetadatas := fun i =>
  if i = "tar_x" then
    some [("a", tarX1Mtime), ("b", 0), ("sub/c", tarX1Mtime), ("sub/d", 0)]
  else none

/-- The destination after a successful apply: exactly the archive's
entries. -/
def tarWorldSynced : World FileMetadatas := fun i =>
  if i = "tar_x" then some tarArchiveEntries else none

/-- The stored current-state snapshot after a successful apply. -/
def tarStoredSynced : StatesMap FileMetadatas :=
  [("tar_x", some tarArchiveEntries)]

/-- The vec_copy item as an `ApplyItemModel`: goal is the `VecA` param
contents, `apply_check` requires execution exactly when current differs
from goal, and both `apply` and `apply_dry` produce the goal. -/
def vecCopyApplyItem : ApplyItemModel (List Nat) :=
  { id := "vec_copy"
    stateGoal := fun _ => some [0, 1, 2, 3, 4, 5, 6, 7]
    applyCheck := fun cur goal =>
      if cur = goal then ApplyCheck.execNotRequired else ApplyCheck.execRequired
    applyExec := fun _ goal => goal
    applyExecDry := fun _ goal => goal }

/-! ## State store and serializer (§4.E, §6)

Per-flow snapshots are YAML maps keyed by item id; a type registry
built from the flow graph supplies, per item id, the codec used to
deserialize that item's payload. The serializer sources are not among
the provided sources, so these definitions are modelled from the spec.
-/

/-- A YAML-like document tree. -/
inductive Yaml
  | str (s : String)
  | nat (n : Nat)
  | seq (l : List Yaml)

/-- A type-registry entry for one item id: how to serialize and
deserialize that item's payload. -/
structure Codec (V : Type) where
  enc : V → Yaml
  dec : Yaml → Option V

/-- Modelled from the spec: `StatesSerializer::serialize` (§4.E; the
serializer source is not among the provided sources) writes the states
map as a YAML map with one `<item_id>: <payload>` entry per item, each
payload produced by that item's `State` serialization. -/
def statesSerialize {V : Type} (reg : ItemId → Codec V)
    (states : List (ItemId × V)) : List (ItemId × Yaml) :=
  states.map fun p => (p.1, (reg p.1).enc p.2)

/-- Modelled from the spec: `StatesSerializer::deserialize` (§4.E)
dispatches each entry of the on-disk document through the flow's type
registry by item id; any entry that fails to decode fails the whole
document. -/
def statesDeserialize {V : Type} (reg : ItemId → Codec V) :
    List (ItemId × Yaml) → Option (List (ItemId × V))
  | [] => some []
  | (i, y) :: rest =>
    match (reg i).dec y with
    | none => none
    | some v =>
      match statesDeserialize reg rest with
      | none => none
      | some tail => some ((i, v) :: tail)

/-- Modelled from the spec: `StatesCurrentReadCmdBlock` /
`StatesSerializer::deserialize_stored` (§4.E; error.rs lines 363-375
documents that `StatesCurrentDiscoverRequired` is returned when the
stored current-states file is attempted to be deserialized but does not
exist): a missing snapshot file is the dedicated
`StatesCurrentDiscoverRequired` error, a present file that fails to
parse is the `StatesDeserialize` error, and a parseable file yields the
states map. -/
def statesCurrentRead {V : Type} (reg : ItemId → Codec V)
    (file : Option (List (ItemId × Yaml))) :
    Except PeaceError (List (ItemId × V)) :=
  match file with
  | none => Except.error PeaceError.statesCurrentDiscoverRequired
  | some doc =>
    match statesDeserialize reg doc with
    | some states => Except.ok states
    | none => Except.error (PeaceError.statesDeserialize "test_flow" "parse failure")

/-- The codec registered for the `vec_copy` item's state: a byte list
serialized as a YAML sequence of numbers. -/
def vecCopyCodec : Codec (List Nat) :=
  { enc := fun l => Yaml.seq (l.map Yaml.nat)
    dec := fun y =>
      match y with
      | Yaml.seq l =>
        l.mapM fun e =>
          match e with
          | Yaml.nat n => some n
          | _ => none
      | _ => none }

/-- The type registry of the single-item `vec_copy` flow. -/
def vecCopyReg : ItemId → Codec (List Nat) := fun _ => vecCopyCodec

/-- The states map returned by `StatesDiscoverCmd::current` on the
fresh `vec_copy` flow: the destination list starts empty
(src/workspace_tests/src/rt/cmds/states_discover_cmd.rs,
`current_runs_state_current_for_each_item`). -/
def vecCopyDiscoveredStates : List (ItemId × List Nat) := [("vec_copy", [])]

/-! ## Params partial conversion (src/workspace_tests/src/params.rs)

The `Params` derive macro generates, for a params struct, a partial
struct holding `Option` per field and a fallible conversion back to the
full struct. The macro itself is not among the provided sources; the
conversion is modelled from the spec and from the behaviour pinned by
the tests in src/workspace_tests/src/params.rs.
-/

/-- The `StructParams` test params type: a source and a destination. -/
structure StructParams where
  src : String
  dest : String
deriving DecidableEq, Repr

/-- The generated partial type for `StructParams` (each field becomes
an `Option`). -/
structure StructParamsPartialData where
  src : Option String
  dest : Option String
deriving DecidableEq, Repr

/-- Modelled from the spec: the generated
`TryFrom<StructParamsPartial> for StructParams` conversion succeeds
when every field of the partial is populated, and otherwise returns the
partial itself as the error value. -/
def structParamsTryFromPartialData :
    StructParamsPartialData → Except StructParamsPartialData StructParams
  | { src := some s, dest := some d } => Except.ok { src := s, dest := d }
  | p => Except.error p

end Zzzz

namespace Zzzz

/-- Claim C1: the claim states that mode `None` performs no state-sync
check, mode `Current` re-discovers and compares only current state, mode
`Goal` re-discovers and compares only goal state, and mode `Both` both.
The code diverges: mode `None` appends `ApplyStateSyncCheckCmdBlock::goal()`
(so a goal sync check still runs); mode `Current` discovers current but
appends a goal sync check; mode `Goal` discovers both current and goal
rather than goal only. This theorem evaluates the embedded block list at
those failing inputs, exhibiting the divergence. -/
theorem applyStateSyncCheck_mode_divergence :
    applyCmdBlocks ApplyStoredStateSync.none
      = [ApplyCmdBlock.statesCurrentRead, ApplyCmdBlock.statesGoalRead,
         ApplyCmdBlock.applyStateSyncCheck SyncCheckScope.goal,
         ApplyCmdBlock.applyExec]
    ∧ ((applyCmdBlocks ApplyStoredStateSync.none).filter ApplyCmdBlock.isSyncCheck).length = 1
    ∧ applyCmdBlocks ApplyStoredStateSync.current
      = [ApplyCmdBlock.statesCurrentRead, ApplyCmdBlock.statesGoalRead,
         ApplyCmdBlock.statesDiscover DiscoverScope.current,
         ApplyCmdBlock.applyStateSyncCheck SyncCheckScope.goal,
         ApplyCmdBlock.applyExec]
    ∧ applyCmdBlocks ApplyStoredStateSync.goal
      = [ApplyCmdBlock.statesCurrentRead, ApplyCmdBlock.statesGoalRead,
         ApplyCmdBlock.statesDiscover DiscoverScope.currentAndGoal,
         ApplyCmdBlock.applyStateSyncCheck SyncCheckScope.goal,
         ApplyCmdBlock.applyExec] := by
  refine ⟨rfl, rfl, rfl, rfl⟩

/-- Claim C2: after a block's exec completes and all emitted partials
have been folded into the accumulator, if the accumulated outcome holds
at least one per-item error then the block's result is the
partial-execution handler applied to the accumulator with the per-item
error map preserved, and the pipeline stops at this block without
running later blocks; with no per-item errors, the final outcome is
computed from the accumulator, inserted into the resource map, and the
pipeline advances to the next block. -/
theorem cmdBlockWrapper_exec_partial_handler_short_circuit
    {Res Input Acc Out ExecOut Prt E : Type}
    (w : CmdBlockWrapper Res Input Acc Out ExecOut Prt E)
    (res res1 res2 : Res) (input : Input) (partials : List Prt)
    (co : CmdOutcome Acc E)
    (hFetch : w.cmdBlock.inputFetch res = Except.ok (input, res1))
    (hExec : w.cmdBlock.exec input res1 = (partials, res2))
    (hCollate :
      partials.foldlM w.cmdBlock.outcomeCollate
          { value := w.cmdBlock.outcomeAccInit input, errors := [] }
        = Except.ok co) :
    (co.errors ≠ [] →
      ∀ rest, cmdExecutionRun (CmdBlockWrapper.exec w :: rest) res
        = CmdExecutionResult.blockInterrupted
            { value := w.fnPartialExecHandler co.value, errors := co.errors })
    ∧ (co.errors = [] →
      ∀ rest, cmdExecutionRun (CmdBlockWrapper.exec w :: rest) res
        = cmdExecutionRun rest
            (w.cmdBlock.outcomeInsert res2 (w.cmdBlock.outcomeFromAcc co.value))) := by
  have hexec : CmdBlockWrapper.exec w res
      = (if co.isOk then
          Except.ok (w.cmdBlock.outcomeInsert res2 (w.cmdBlock.outcomeFromAcc co.value))
        else
          Except.error (CmdBlockError.outcome (co.map w.fnPartialExecHandler))) := by
    unfold CmdBlockWrapper.exec
    rw [hFetch]
    simp only [hExec, hCollate]
  constructor
  · intro hErrs rest
    have hok : co.isOk = false := by
      simp [CmdOutcome.isOk, List.isEmpty_iff, hErrs]
    rw [show cmdExecutionRun (CmdBlockWrapper.exec w :: rest) res
        = (match CmdBlockWrapper.exec w res with
           | Except.ok res2 => cmdExecutionRun rest res2
           | Except.error (CmdBlockError.block e) => CmdExecutionResult.blockErr e
           | Except.error (CmdBlockError.outcome o) =>
              CmdExecutionResult.blockInterrupted o) from rfl]
    rw [hexec, hok]
    simp [CmdOutcome.map]
  · intro hErrs rest
    have hok : co.isOk = true := by
      simp [CmdOutcome.isOk, List.isEmpty_iff, hErrs]
    rw [show cmdExecutionRun (CmdBlockWrapper.exec w :: rest) res
        = (match CmdBlockWrapper.exec w res with
           | Except.ok res2 => cmdExecutionRun rest res2
           | Except.error (CmdBlockError.block e) => CmdExecutionResult.blockErr e
           | Except.error (CmdBlockError.outcome o) =>
              CmdExecutionResult.blockInterrupted o) from rfl]
    rw [hexec, hok]
    simp

/-- Witness for claim C2: the sample block emits one successful partial
and one per-item error, so the one-block pipeline returns
`BlockInterrupted` with the handler-mapped value and that error map. -/
theorem cmdBlockWrapper_exec_short_circuit_witness :
    cmdExecutionRun [CmdBlockWrapper.exec sampleCmdBlockWrapper] 0
      = CmdExecutionResult.blockInterrupted
          { value := 3, errors := [("item_a", "boom")] } :=
  (cmdBlockWrapper_exec_partial_handler_short_circuit
      sampleCmdBlockWrapper 0 0 0 ()
      [Except.ok 3, Except.error ("item_a", "boom")]
      { value := 3, errors := [("item_a", "boom")] }
      rfl rfl rfl).1 (by decide) []

/-- Claim C10: the diff computation visits items in graph order and
includes an entry in the resulting diffs map only for items whose
`state_diff` returns `Some`; items whose `state_diff` returns `None`
are silently omitted rather than reported as errors. Under the
hypothesis that no item's `state_diff_exec` raises an error, the
result is exactly the in-order `filterMap` keeping `Some` diffs. -/
theorem diff_any_graph_order_some_only {E D SA SB : Type}
    (items : List (DiffItemModel E D SA SB)) (sa : SA) (sb : SB)
    (h : ∀ it ∈ items, ∃ o, it.stateDiffExec sa sb = Except.ok o) :
    diffAny items sa sb
      = Except.ok (items.filterMap fun it =>
          match it.stateDiffExec sa sb with
          | Except.ok (some d) => some (it.id, d)
          | _ => none) := by
  induction items with
  | nil => rfl
  | cons it rest ih =>
    obtain ⟨o, ho⟩ := h it (List.mem_cons_self it rest)
    have hrest := ih fun x hx => h x (List.mem_cons_of_mem it hx)
    cases o with
    | none => simp [diffAny, ho, hrest, List.filterMap_cons]
    | some d => simp [diffAny, ho, hrest, List.filterMap_cons]

/-- Witness for claim C10: on the three sample items, the item whose
`state_diff` returns `None` is omitted and the other two appear in
graph order. -/
theorem diff_any_graph_order_some_only_witness :
    diffAny sampleDiffItems 2 3 = Except.ok [("item_a", 5), ("item_c", 6)] :=
  (diff_any_graph_order_some_only sampleDiffItems 2 3
    (by
      intro it hit
      simp only [sampleDiffItems, List.mem_cons, List.not_mem_nil, or_false] at hit
      rcases hit with h | h | h <;> subst h <;> exact ⟨_, rfl⟩)).trans rfl

/-- Claim C5: for the single-item `vec_copy` flow with param
`VecA([0..=7])`, after discovery only, diffing the stored current state
(empty) against the stored goal state (`[0..=7]`) yields exactly one
state diff for `vec_copy`, equal to
`Inserted { index: 0, changes: [0..=7] }`. -/
theorem diff_stored_vec_copy_inserted :
    diffAny [vecCopyDiffItem] vecCopyStoredCurrent vecCopyStoredGoal
      = Except.ok [("vec_copy", [VecDiffType.inserted 0 [0, 1, 2, 3, 4, 5, 6, 7]])] := rfl

/-- Validation of the modelled list diff against the other expected
diff value asserted in src/workspace_tests/src/rt/diff_cmd.rs
(`diff_with_multiple_changes`): diffing `[0,1,2,3,4,5,6,7]` against
`[0,1,2,4,5,6,8,9]` yields `Removed{index:3,len:1}`,
`Altered{index:7,changes:[1]}` and `Inserted{index:8,changes:[9]}`. -/
theorem vecDiff_matches_multiple_changes_expected :
    vecDiff [0, 1, 2, 3, 4, 5, 6, 7] [0, 1, 2, 4, 5, 6, 8, 9]
      = [VecDiffType.removed 3 1, VecDiffType.altered 7 [1],
         VecDiffType.inserted 8 [9]] := by decide

/-- Claim C7: in the multi-profile diff of stored current states, the
params specs used for diffing are looked up first from `profile_a`,
then (if `profile_a` has no entry) from `profile_b`; if neither profile
has params specs, the command fails with `ParamsSpecsNotDefinedForDiff`
naming both profiles. -/
theorem diff_current_stored_params_specs_fallback {PS States_ Result : Type}
    (profiles : List String)
    (profileToParamsSpecs : String → Option (Option PS))
    (profileToStatesCurrentStored : String → Option (Option States_))
    (diffAnyFn : PS → States_ → States_ → Result)
    (profileA profileB : String) :
    (∀ ps, profileToParamsSpecs profileA = some (some ps) →
      diffCurrentStored profiles profileToParamsSpecs profileToStatesCurrentStored
          diffAnyFn profileA profileB
        = diffCurrentStoredStates profiles profileToStatesCurrentStored diffAnyFn
            profileA profileB ps)
    ∧ (profileToParamsSpecs profileA = none →
       ∀ ps, profileToParamsSpecs profileB = some (some ps) →
        diffCurrentStored profiles profileToParamsSpecs profileToStatesCurrentStored
            diffAnyFn profileA profileB
          = diffCurrentStoredStates profiles profileToStatesCurrentStored diffAnyFn
              profileA profileB ps)
    ∧ ((profileToParamsSpecs profileA).bind id = none →
       (profileToParamsSpecs profileB).bind id = none →
        diffCurrentStored profiles profileToParamsSpecs profileToStatesCurrentStored
            diffAnyFn profileA profileB
          = Except.error (PeaceError.paramsSpecsNotDefinedForDiff profileA profileB)) := by
  refine ⟨?_, ?_, ?_⟩
  · intro ps hA
    simp [diffCurrentStored, hA, Option.orElse]
  · intro hA ps hB
    simp [diffCurrentStored, hA, hB, Option.orElse]
  · intro hA hB
    unfold diffCurrentStored
    cases hAc : profileToParamsSpecs profileA with
    | none =>
      cases hBc : profileToParamsSpecs profileB with
      | none => simp [hAc, hBc, Option.orElse]
      | some b =>
        cases b with
        | none => simp [hAc, hBc, Option.orElse]
        | some ps => rw [hBc] at hB; simp at hB
    | some a =>
      cases a with
      | none => simp [hAc, Option.orElse]
      | some ps => rw [hAc] at hA; simp at hA

/-- Witness for claim C7: with `profile_a` carrying no entry and
`profile_b` carrying an in-scope entry without params specs, the
multi-profile diff fails with `ParamsSpecsNotDefinedForDiff` naming
both profiles. -/
theorem diff_current_stored_params_specs_fallback_witness :
    diffCurrentStored ["profile_b"] (fun _ => (none : Option (Option Nat)))
        (fun _ => (some (some 0) : Option (Option Nat))) (fun ps a b => ps + a + b)
        "profile_a" "profile_b"
      = Except.error (PeaceError.paramsSpecsNotDefinedForDiff "profile_a" "profile_b") :=
  (diff_current_stored_params_specs_fallback ["profile_b"]
      (fun _ => (none : Option (Option Nat)))
      (fun _ => (some (some 0) : Option (Option Nat)))
      (fun ps a b => ps + a + b) "profile_a" "profile_b").2.2 rfl rfl

/-- Helper for claim C3: when every item's `apply_check` reports
`ExecNotRequired` against the starting world, no item executes, the
world is unchanged throughout the walk, and each item emits its
unchanged current state. -/
theorem applyExecBlock_all_not_required {St : Type}
    (items : List (ApplyItemModel St)) (w : World St)
    (h : ∀ it ∈ items,
      it.applyCheck (w it.id) (it.stateGoal w) = ApplyCheck.execNotRequired) :
    applyExecBlock items w = (w, items.map fun it => (it.id, w it.id)) := by
  induction items with
  | nil => rfl
  | cons it rest ih =>
    have hstep : applyItemStep w it = (w, (it.id, w it.id)) := by
      unfold applyItemStep
      rw [h it (List.mem_cons_self it rest)]
    have hrest := ih fun x hx => h x (List.mem_cons_of_mem it hx)
    simp [applyExecBlock, hstep, hrest]

/-- Claim C3: apply is idempotent. When every item's `apply_check`
returns `ExecNotRequired` and the stored current-state snapshot is in
sync with the live current states (as after a previous apply or
discovery), running the whole apply pipeline rewrites the snapshot to
the same content, leaving it unchanged. In particular, for the `tar_x`
item with a destination pre-populated with stale files, a first apply
produces exactly the archive's files with the archive's mtimes (stale
entries removed), and a second invocation reports `ExecNotRequired` and
leaves the stored state identical. -/
theorem apply_exec_not_required_idempotent :
    (∀ (St : Type) (items : List (ApplyItemModel St)) (w : World St)
        (storedCurrent : StatesMap St),
      (∀ it ∈ items,
        it.applyCheck (w it.id) (it.stateGoal w) = ApplyCheck.execNotRequired) →
      storedCurrent = (items.map fun it => (it.id, w it.id)) →
      (ensureCmdExec items w storedCurrent).storedCurrent = storedCurrent)
    ∧ (ensureCmdExec [tarXItem] tarWorldStale []).statesApplied
        = [("tar_x", some tarArchiveEntries)]
    ∧ tarXItem.applyCheck (tarWorldSynced "tar_x") (tarXItem.stateGoal tarWorldSynced)
        = ApplyCheck.execNotRequired
    ∧ (ensureCmdExec [tarXItem] tarWorldSynced tarStoredSynced).storedCurrent
        = tarStoredSynced := by
  refine ⟨?_, by decide, by decide, by decide⟩
  intro St items w storedCurrent hchk hsync
  have hrun := applyExecBlock_all_not_required items w hchk
  simp [ensureCmdExec, hrun, hsync]

/-- Witness for claim C3: the second `tar_x` apply invocation, with the
destination and stored snapshot both equal to the archive's entries,
leaves the stored current-state snapshot unchanged. -/
theorem apply_exec_not_required_idempotent_witness :
    (ensureCmdExec [tarXItem] tarWorldSynced tarStoredSynced).storedCurrent
      = tarStoredSynced :=
  apply_exec_not_required_idempotent.1 FileMetadatas [tarXItem] tarWorldSynced
    tarStoredSynced
    (by
      intro it hit
      rw [List.mem_singleton] at hit
      subst hit
      decide)
    (by decide)

/-- Claim C8: the dry apply command is side-effect free with respect to
persisted state: it performs no `serialize_current`, so the stored
current-state snapshot is unchanged; and for items whose `apply_dry`
returns the goal state (and whose `apply_check` reports
`ExecNotRequired` only when current equals goal), the dry-applied state
returned for each item equals that item's goal state. -/
theorem apply_dry_keeps_snapshot_and_returns_goal {St : Type}
    (items : List (ApplyItemModel St)) (w : World St) (stored : StatesMap St)
    (hdry : ∀ it ∈ items, ∀ c g, it.applyExecDry c g = g)
    (hchk : ∀ it ∈ items, ∀ c g,
      it.applyCheck c g = ApplyCheck.execNotRequired → c = g) :
    (ensureCmdExecDry items w stored).storedCurrent = stored
    ∧ (ensureCmdExecDry items w stored).statesApplied
        = (items.map fun it => (it.id, it.stateGoal w)) := by
  refine ⟨rfl, ?_⟩
  show items.map (applyDryItemStep w) = items.map fun it => (it.id, it.stateGoal w)
  induction items with
  | nil => rfl
  | cons it rest ih =>
    have hhead : applyDryItemStep w it = (it.id, it.stateGoal w) := by
      unfold applyDryItemStep
      cases hc : it.applyCheck (w it.id) (it.stateGoal w) with
      | execRequired =>
        rw [hdry it (List.mem_cons_self it rest)]
      | execNotRequired =>
        rw [hchk it (List.mem_cons_self it rest) _ _ hc]
    have hrest := ih (fun x hx => hdry x (List.mem_cons_of_mem it hx))
      (fun x hx => hchk x (List.mem_cons_of_mem it hx))
    simp [hhead, hrest]

/-- Witness for claim C8: a dry apply of the `vec_copy` item over an
empty destination leaves the stored snapshot unchanged and returns the
goal state `[0..=7]` as the dry-applied state. -/
theorem apply_dry_keeps_snapshot_and_returns_goal_witness :
    (ensureCmdExecDry [vecCopyApplyItem]
        (fun i => if i = "vec_copy" then some [] else none)
        [("vec_copy", some ([] : List Nat))]).storedCurrent
      = [("vec_copy", some ([] : List Nat))]
    ∧ (ensureCmdExecDry [vecCopyApplyItem]
        (fun i => if i = "vec_copy" then some [] else none)
        [("vec_copy", some ([] : List Nat))]).statesApplied
      = [("vec_copy", some [0, 1, 2, 3, 4, 5, 6, 7])] := by
  have h := apply_dry_keeps_snapshot_and_returns_goal [vecCopyApplyItem]
    (fun i => if i = "vec_copy" then some [] else none)
    [("vec_copy", some ([] : List Nat))]
    (by
      intro it hit
      rw [List.mem_singleton] at hit
      subst hit
      intro c g
      rfl)
    (by
      intro it hit
      rw [List.mem_singleton] at hit
      subst hit
      intro c g hcg
      by_contra hne
      simp [vecCopyApplyItem, hne] at hcg)
  exact ⟨h.1, h.2.trans (by decide)⟩

/-- Claim C4: round-trip through the state store. For every in-graph
states map whose registered codecs invert their own encoding,
serializing to the per-flow YAML snapshot and deserializing through the
flow's type registry yields an equal states map; in particular, running
discover-current on the `vec_copy` flow and reading the stored current
states in a fresh context returns the same map `{vec_copy -> []}` that
the discovery returned. -/
theorem states_serialize_roundtrip :
    (∀ (V : Type) (reg : ItemId → Codec V) (states : List (ItemId × V)),
      (∀ p ∈ states, (reg p.1).dec ((reg p.1).enc p.2) = some p.2) →
      statesDeserialize reg (statesSerialize reg states) = some states)
    ∧ statesCurrentRead vecCopyReg
        (some (statesSerialize vecCopyReg vecCopyDiscoveredStates))
      = Except.ok vecCopyDiscoveredStates := by
  constructor
  · intro V reg states h
    induction states with
    | nil => rfl
    | cons p rest ih =>
      obtain ⟨i, v⟩ := p
      have hp := h (i, v) (List.mem_cons_self (i, v) rest)
      have hrest := ih fun x hx => h x (List.mem_cons_of_mem (i, v) hx)
      simp only [statesSerialize, List.map_cons] at hrest ⊢
      simp [statesDeserialize, hp, hrest]
  · rfl

/-- Witness for claim C4: the round-trip holds at the concrete
single-item states map `{vec_copy -> [0, 1, 2]}` under the `vec_copy`
flow's registry. -/
theorem states_serialize_roundtrip_witness :
    statesDeserialize vecCopyReg
        (statesSerialize vecCopyReg [("vec_copy", [0, 1, 2])])
      = some [("vec_copy", [0, 1, 2])] :=
  states_serialize_roundtrip.1 (List Nat) vecCopyReg [("vec_copy", [0, 1, 2])]
    (by
      intro p hp
      rw [List.mem_singleton] at hp
      subst hp
      rfl)

/-- Claim C6: when the per-flow current-states snapshot file has never
been written, the read-stored-current-states command fails with the
dedicated `StatesCurrentDiscoverRequired` error kind (distinct from the
`StatesDeserialize` parse error kind) and returns no states map. -/
theorem states_current_read_discover_required {V : Type} (reg : ItemId → Codec V) :
    statesCurrentRead reg none
      = Except.error PeaceError.statesCurrentDiscoverRequired
    ∧ (∀ states, statesCurrentRead reg none ≠ Except.ok states)
    ∧ (∀ flowId msg,
        PeaceError.statesCurrentDiscoverRequired
          ≠ PeaceError.statesDeserialize flowId msg) := by
  refine ⟨rfl, ?_, ?_⟩
  · intro states h
    exact Except.noConfusion h
  · intro flowId msg h
    exact PeaceError.noConfusion h

/-- Witness for claim C6: reading the never-written snapshot of the
`vec_copy` flow fails with `StatesCurrentDiscoverRequired` and does not
return the discovered map. -/
theorem states_current_read_discover_required_witness :
    statesCurrentRead vecCopyReg none
      = Except.error PeaceError.statesCurrentDiscoverRequired
    ∧ statesCurrentRead vecCopyReg none ≠ Except.ok vecCopyDiscoveredStates :=
  ⟨(states_current_read_discover_required vecCopyReg).1,
   (states_current_read_discover_required vecCopyReg).2.1 vecCopyDiscoveredStates⟩

/-- Claim C9: converting a params partial into the full params type
succeeds exactly when every field of the partial is `Some`; when any
field is `None`, the conversion returns an error carrying the partial
back with all of its fields unchanged. -/
theorem params_try_from_partial_all_some (p : StructParamsPartialData) :
    ((∃ q, structParamsTryFromPartialData p = Except.ok q)
      ↔ p.src.isSome = true ∧ p.dest.isSome = true)
    ∧ (∀ q, structParamsTryFromPartialData p = Except.error q → q = p) := by
  obtain ⟨src, dest⟩ := p
  cases src <;> cases dest <;> simp [structParamsTryFromPartialData]

/-- Witness for claim C9: the fully-populated partial converts, and the
partly-populated partial of the test
(`params_try_from_partial_returns_err_when_some_fields_are_none`) is
carried back unchanged. -/
theorem params_try_from_partial_all_some_witness :
    (∃ q, structParamsTryFromPartialData { src := some "a", dest := some "b" }
      = Except.ok q)
    ∧ ({ src := some "a", dest := none } : StructParamsPartialData)
      = { src := some "a", dest := none } :=
  ⟨(params_try_from_partial_all_some { src := some "a", dest := some "b" }).1.mpr
      (by decide),
   (params_try_from_partial_all_some { src := some "a", dest := none }).2
      { src := some "a", dest := none } rfl⟩

end Zzzz
